import Mathlib

/-!
# Verification of the seat-inventory core of the jetcongo backend

Shallow embedding of the reservation / capacity / payment core of the
booking backend (`app/api/v1/reservations.py`, `app/api/v1/admin.py`,
`app/api/v1/payments.py`, data model in `app/db/models.py`).

Modelling conventions:
* SQLAlchemy rows become Lean structures; `Numeric` (exact decimal) columns
  become `ℚ`, nullable columns become `Option`.
* Each endpoint handler becomes a function `DB → args → Except ApiError DB`.
  An `HTTPException` raised before `db.commit()` leaves the session
  uncommitted, so a failing call returns `.error e` and the database value is
  unchanged.
* `HTTPException` details are modelled by the structured type `ApiError`;
  `ApiError.detail` renders the exact French message strings of the source.
* Timestamps, HTTP plumbing, JWT auth and e-mail dispatch are outside the
  modelled core; `current_user` becomes a plain user id argument.
-/

set_option autoImplicit false

/-- Row of table `avion` (`models.Avion`): `capacite` is an `Integer` column
(with a `capacite > 0` check constraint at the storage layer), `statut` a
free string defaulting to `"disponible"`. -/
structure Avion where
  id : Nat
  modele : String
  capacite : Int
  statut : String
  compagnie : Option String
deriving Repr, DecidableEq

/-- Row of table `vol` (`models.Vol`). `prix` is `Numeric(10,2)`, modelled as
`ℚ`. Departure date is abstracted to a day number; times are not needed by
any modelled operation. -/
structure Vol where
  id : Nat
  villeDepart : String
  villeArrivee : String
  dateDepart : Nat
  prix : ℚ
  statut : String
  avionId : Nat
deriving Repr, DecidableEq

/-- Row of table `reservation` (`models.Reservation`): `statut` defaults to
`"EN_ATTENTE"`, `nombre_place` (`Numeric(10,0)`, nullable) becomes
`Option Int`, `total_payer` (`Numeric(10,2)`, nullable) becomes `Option ℚ`. -/
structure Reservation where
  id : Nat
  utilisateurId : Nat
  volId : Nat
  statut : String
  nombrePlace : Option Int
  totalPayer : Option ℚ
deriving Repr, DecidableEq

/-- Row of table `paiement` (`models.Paiement`).  The `mode_paiement_id`
foreign key always points at the lazily created `"Mobile Money"` label
(tracked in `DB.modePaiements`), so the label itself is not repeated here. -/
structure Paiement where
  montant : ℚ
  reservationId : Nat
  phoneNumber : String
deriving Repr, DecidableEq

/-- The persisted state the modelled endpoints read and write.
`modePaiements` is the set of `modepaiement.libelle` values;
`nextReservationId` models the autoincrement primary key of `reservation`. -/
structure DB where
  avions : List Avion
  vols : List Vol
  reservations : List Reservation
  paiements : List Paiement
  modePaiements : List String
  nextReservationId : Nat
deriving Repr, DecidableEq

deriving instance DecidableEq for Except

/-- Structured form of the `HTTPException`s raised by the modelled handlers. -/
inductive ApiError where
  | notFound (msg : String)
  | invalidAircraftCapacity
  | nonPositiveSeats
  | capacityExceeded (remaining : Int)
  | duplicatePayment
  | nonPositiveCapacity
deriving Repr, DecidableEq

/-- The exact `detail` strings of the source's `HTTPException`s. -/
def ApiError.detail : ApiError → String
  | .notFound m => m
  | .invalidAircraftCapacity => "La capacité de l'avion associé au vol est invalide."
  | .nonPositiveSeats => "Le nombre de places doit être strictement positif."
  | .capacityExceeded remaining =>
      "Capacité insuffisante sur ce vol. Places restantes : " ++ toString remaining ++ "."
  | .duplicatePayment => "Le paiement pour cette réservation a déjà été effectué."
  | .nonPositiveCapacity => "La capacité doit être strictement positive."

/-- `Decimal("12.50")` — the fixed service fee (`taxe_fixe`) added once per
reservation in `create_reservation`, `create_reservation_admin` and
`update_reservation_admin`. -/
def taxe_fixe : ℚ := 12.5

/-- `_compute_taken_seats` (`reservations.py`): SQL `SUM(nombre_place)` over
the reservations of one flight whose `statut != "ANNULEE"` (SQL `SUM` skips
`NULL` values, hence `Option.getD 0`), coalesced to `0`. -/
def occupied_seats (resList : List Reservation) (vid : Nat) : Int :=
  ((resList.filter fun r => r.volId == vid && r.statut != "ANNULEE").map
    fun r => r.nombrePlace.getD 0).sum

/-- The `taken` query of `update_reservation_admin`: same sum, additionally
excluding the reservation being amended (`Reservation.id != reservation.id`). -/
def occupied_seats_excluding (resList : List Reservation) (vid rid : Nat) : Int :=
  ((resList.filter fun r => r.volId == vid && r.statut != "ANNULEE" && r.id != rid).map
    fun r => r.nombrePlace.getD 0).sum

/-- The flight lookup of `create_reservation`:
`query(Vol).filter(Vol.id == vol_id, Vol.statut == "actif").first()`. -/
def findVolActif (db : DB) (volId : Nat) : Option Vol :=
  db.vols.find? fun v => v.id == volId && v.statut == "actif"

/-- The `vol.avion` relationship: primary-key lookup in `avion`. -/
def findAvion (avions : List Avion) (aid : Nat) : Option Avion :=
  avions.find? fun a => a.id == aid

/-- Primary-key lookup in `reservation`. -/
def findReservation (db : DB) (rid : Nat) : Option Reservation :=
  db.reservations.find? fun r => r.id == rid

/-- `POST /reservations` (`create_reservation`, `reservations.py` lines 29-91):
find the flight (must be `actif`), validate the aircraft capacity, validate
`seats > 0`, compute `remaining = capacite - taken`, reject with the
remaining count if `seats > remaining`, otherwise persist a new reservation
with the server-default status `"EN_ATTENTE"` and
`total = prix * seats + taxe_fixe` computed in exact decimals.
`create_reservation_admin` (`admin.py` lines 773-847) repeats the same
checks and the same insert verbatim, after an extra user-existence lookup. -/
def create_reservation (db : DB) (userId volId : Nat) (seats : Int) :
    Except ApiError DB :=
  match findVolActif db volId with
  | none => .error (.notFound "Vol introuvable.")
  | some vol =>
    match findAvion db.avions vol.avionId with
    | none => .error .invalidAircraftCapacity
    | some avion =>
      if avion.capacite ≤ 0 then .error .invalidAircraftCapacity
      else if seats ≤ 0 then .error .nonPositiveSeats
      else if seats > avion.capacite - occupied_seats db.reservations vol.id then
        .error (.capacityExceeded (avion.capacite - occupied_seats db.reservations vol.id))
      else
        .ok { db with
          reservations := db.reservations ++
            [{ id := db.nextReservationId, utilisateurId := userId, volId := vol.id,
               statut := "EN_ATTENTE", nombrePlace := some seats,
               totalPayer := some (vol.prix * (seats : ℚ) + taxe_fixe) }],
          nextReservationId := db.nextReservationId + 1 }

/-- The payload of `PUT /admin/reservations/{id}`
(`schemas.AdminReservationUpdate`). -/
structure AdminReservationUpdate where
  seats : Option Int
  statut : Option String
deriving Repr, DecidableEq

/-- The row mutation of the seat branch of `update_reservation_admin`:
`reservation.nombre_place = seats`, a fully recomputed `total_payer`, and —
because the handler applies the optional `statut` field in the same commit —
the status overwritten when supplied. -/
def amendRow (seats : Int) (total : ℚ) (st? : Option String) (r : Reservation) :
    Reservation :=
  { r with nombrePlace := some seats, totalPayer := some total,
           statut := st?.getD r.statut }

/-- `PUT /admin/reservations/{reservation_id}` (`update_reservation_admin`,
`admin.py` lines 850-924): when `seats` is supplied it is validated positive,
the flight/aircraft configuration is validated, `remaining` is recomputed
excluding this reservation itself, and on success both `nombre_place` and a
fully recomputed `total_payer` are stored; when `statut` is supplied it
overwrites the status unconditionally.  Both updates land in one commit. -/
def update_reservation_admin (db : DB) (rid : Nat) (payload : AdminReservationUpdate) :
    Except ApiError DB :=
  match findReservation db rid with
  | none => .error (.notFound "Réservation introuvable.")
  | some reservation =>
    match payload.seats with
    | some seats =>
      if seats ≤ 0 then .error .nonPositiveSeats
      else
        match db.vols.find? fun v => v.id == reservation.volId with
        | none => .error .invalidAircraftCapacity
        | some vol =>
          match findAvion db.avions vol.avionId with
          | none => .error .invalidAircraftCapacity
          | some avion =>
            if avion.capacite ≤ 0 then .error .invalidAircraftCapacity
            else if seats >
                avion.capacite -
                  occupied_seats_excluding db.reservations vol.id reservation.id then
              .error (.capacityExceeded
                (avion.capacite -
                  occupied_seats_excluding db.reservations vol.id reservation.id))
            else
              .ok { db with reservations := db.reservations.map fun r =>
                      if r.id == rid then amendRow seats (vol.prix * (seats : ℚ) + taxe_fixe) payload.statut r
                      else r }
    | none =>
      match payload.statut with
      | none => .ok db
      | some st =>
        .ok { db with reservations := db.reservations.map fun r =>
                if r.id == rid then { r with statut := st } else r }

/-- `POST /admin/reservations/{id}/confirm` (`confirm_reservation_admin`):
sets `statut = "CONFIRMEE"` unconditionally on the found reservation. -/
def confirm_reservation_admin (db : DB) (rid : Nat) : Except ApiError DB :=
  match findReservation db rid with
  | none => .error (.notFound "Réservation introuvable.")
  | some _ =>
    .ok { db with reservations := db.reservations.map fun r =>
            if r.id == rid then { r with statut := "CONFIRMEE" } else r }

/-- `POST /admin/reservations/{id}/cancel` (`cancel_reservation_admin`,
`admin.py` lines 950-970): sets `statut = "ANNULEE"` unconditionally. -/
def cancel_reservation_admin (db : DB) (rid : Nat) : Except ApiError DB :=
  match findReservation db rid with
  | none => .error (.notFound "Réservation introuvable.")
  | some _ =>
    .ok { db with reservations := db.reservations.map fun r =>
            if r.id == rid then { r with statut := "ANNULEE" } else r }

/-- `POST /payments/process` (`process_payment`, `payments.py` lines 33-81):
ownership lookup, duplicate-payment check, lazy creation of the
`"Mobile Money"` payment-method label, then one commit inserting the payment
(amount `reservation.total_payer or Decimal("0.00")`; a stored total of `0`
is falsy in Python but `or` then yields the same value `0.00`, so
`Option.getD 0` is exact) and setting the reservation's status to `"PAYE"`.
The receipt e-mail is sent after the commit inside `try/except` and cannot
affect the persisted state, so it is not modelled. -/
def process_payment (db : DB) (userId rid : Nat) (phoneNumber : String) :
    Except ApiError DB :=
  match db.reservations.find? fun r => r.id == rid && r.utilisateurId == userId with
  | none => .error (.notFound "Réservation introuvable.")
  | some reservation =>
    if db.paiements.any fun p => p.reservationId == rid then
      .error .duplicatePayment
    else
      .ok { db with
        modePaiements :=
          if db.modePaiements.contains "Mobile Money" then db.modePaiements
          else db.modePaiements ++ ["Mobile Money"],
        paiements := db.paiements ++
          [{ montant := reservation.totalPayer.getD 0, reservationId := reservation.id,
             phoneNumber := phoneNumber }],
        reservations := db.reservations.map fun r =>
          if r.id == reservation.id then { r with statut := "PAYE" } else r }

/-- The payload of `PUT /admin/aircrafts/{id}` (`schemas.AvionUpdate`). -/
structure AvionUpdate where
  modele : Option String
  capacite : Option Int
  statut : Option String
  compagnie : Option String
deriving Repr, DecidableEq

/-- Python's `str.lower()` as applied to the ASCII aircraft-status strings of
`update_aircraft` (structural recursion over the characters, so concrete
instances evaluate in the kernel). -/
def lowerAscii (s : String) : String := ⟨s.data.map Char.toLower⟩

/-- The aircraft row after the field-wise partial update of
`update_aircraft` (each `if payload.x is not None: avion.x = payload.x`). -/
def avionAfterUpdate (avion : Avion) (payload : AvionUpdate) : Avion :=
  { avion with
    modele := payload.modele.getD avion.modele,
    capacite := payload.capacite.getD avion.capacite,
    statut := payload.statut.getD avion.statut,
    compagnie := match payload.compagnie with
      | some c => some c
      | none => avion.compagnie }

/-- `PUT /admin/aircrafts/{avion_id}` (`update_aircraft`, `admin.py` lines
500-550): partial update of one aircraft; a supplied non-positive capacity
is rejected before anything is committed; if the status changed
(`original_status != avion.statut`) and the new value (lowercased) is not in
`["disponible", "available"]`, every flight of this aircraft whose status is
`"actif"` is bulk-updated to `"bloque"` in the same commit. -/
def update_aircraft (db : DB) (aid : Nat) (payload : AvionUpdate) :
    Except ApiError DB :=
  match findAvion db.avions aid with
  | none => .error (.notFound "Avion introuvable.")
  | some avion =>
    if payload.capacite.any fun c => c ≤ 0 then .error .nonPositiveCapacity
    else
      .ok { db with
        avions := db.avions.map fun a =>
          if a.id == aid then avionAfterUpdate avion payload else a,
        vols :=
          if avion.statut != (avionAfterUpdate avion payload).statut
              && !(["disponible", "available"].contains
                    (lowerAscii (avionAfterUpdate avion payload).statut)) then
            db.vols.map fun v =>
              if v.avionId == avion.id && v.statut == "actif" then
                { v with statut := "bloque" }
              else v
          else db.vols }

/-- Per-flight booked seats as computed by `get_flights_summary`
(`admin.py` lines 184-193): the grouped query
`SUM(nombre_place) ... GROUP BY vol_id` has **no** status filter, so for a
flight of the day `seats_map.get(v.id, 0)` is the seat sum over *all* its
reservations, cancelled ones included. -/
def seats_booked_all (resList : List Reservation) (vid : Nat) : Int :=
  ((resList.filter fun r => r.volId == vid).map fun r => r.nombrePlace.getD 0).sum

/-- `capacity = v.avion.capacite if v.avion is not None and v.avion.capacite
is not None else 0` (`admin.py` lines 197-199; the column itself is
non-nullable, so only the missing-row default matters). -/
def capacity_or_zero (db : DB) (v : Vol) : Int :=
  match findAvion db.avions v.avionId with
  | some a => a.capacite
  | none => 0

/-- The `load_factors` list of `get_flights_summary` (`admin.py` lines
195-203): over the flights departing `today`, skipping flights with
`capacity <= 0`, and contributing `seats_booked / capacity * 100`. -/
def load_factors (db : DB) (today : Nat) : List ℚ :=
  (db.vols.filter fun v => v.dateDepart == today).filterMap fun v =>
    if capacity_or_zero db v ≤ 0 then none
    else some ((seats_booked_all db.reservations v.id : ℚ) / (capacity_or_zero db v : ℚ) * 100)

/-- `avg_load_factor` of `get_flights_summary` (`admin.py` lines 180-206):
`0.0` when no flight contributes, otherwise the mean of `load_factors`.
(The handler additionally applies `round(·, 1)` for display; the claims are
about the averaged value, which is modelled exactly in `ℚ`.) -/
def avg_load_factor (db : DB) (today : Nat) : ℚ :=
  let lfs := load_factors db today
  if lfs.isEmpty then 0 else lfs.sum / (lfs.length : ℚ)

/-! ## Derived notions used to state the claims -/

/-- Seat count of one reservation as it enters the SQL sums
(`SUM` skips `NULL`, i.e. contributes `0`). -/
def resSeats (r : Reservation) : Int := r.nombrePlace.getD 0

/-- Contribution of one reservation to `occupied_seats` of flight `vid`. -/
def contrib (vid : Nat) (r : Reservation) : Int :=
  if r.volId = vid ∧ r.statut ≠ "ANNULEE" then resSeats r else 0

/-- Contribution to the self-excluding sum of `update_reservation_admin`. -/
def contribEx (vid rid : Nat) (r : Reservation) : Int :=
  if r.id = rid then 0 else contrib vid r

/-- One flight respects its aircraft's capacity: the non-cancelled seat sum
is at most `capacite` (vacuously true if the aircraft row is missing). -/
def volOk (db : DB) (v : Vol) : Bool :=
  (findAvion db.avions v.avionId).all fun a =>
    occupied_seats db.reservations v.id ≤ a.capacite

/-- The capacity invariant of the spec (§3, §8): every flight's non-cancelled
seat sum is at most its aircraft's capacity. -/
def capacityInvariant (db : DB) : Prop := ∀ v ∈ db.vols, volOk db v = true

/-- Database well-formedness: seat counts are non-negative (the handlers only
ever store positive ones), primary keys of `reservation` are unique and below
the autoincrement counter, and primary keys of `vol` are unique. -/
def WF (db : DB) : Prop :=
  (∀ r ∈ db.reservations, 0 ≤ resSeats r) ∧
  (∀ i ∈ db.reservations.map fun r => r.id, i < db.nextReservationId) ∧
  (db.reservations.map fun r => r.id).Nodup ∧
  (db.vols.map fun v => v.id).Nodup

instance (db : DB) : Decidable (capacityInvariant db) := by
  unfold capacityInvariant; infer_instance

instance (db : DB) : Decidable (WF db) := by
  unfold WF; infer_instance

/-- The reservation-lifecycle operations named by the spec: Create, Amend,
Confirm, Cancel and Pay, as implemented by the handlers above. -/
inductive AdminOp where
  | create (userId volId : Nat) (seats : Int)
  | amend (rid : Nat) (payload : AdminReservationUpdate)
  | confirm (rid : Nat)
  | cancel (rid : Nat)
  | pay (userId rid : Nat) (phone : String)
deriving Repr, DecidableEq

def runOp (db : DB) : AdminOp → Except ApiError DB
  | .create u v s => create_reservation db u v s
  | .amend rid p => update_reservation_admin db rid p
  | .confirm rid => confirm_reservation_admin db rid
  | .cancel rid => cancel_reservation_admin db rid
  | .pay u rid ph => process_payment db u rid ph

/-- A failing handler raises `HTTPException` before `db.commit()`, so the
persisted state is unchanged. -/
def applyOp (db : DB) (op : AdminOp) : DB :=
  match runOp db op with
  | .ok db' => db'
  | .error _ => db

def applyOps (db : DB) : List AdminOp → DB
  | [] => db
  | op :: rest => applyOps (applyOp db op) rest

/-- Status of the reservation with primary key `rid`, if present. -/
def statusOf (db : DB) (rid : Nat) : Option String :=
  (findReservation db rid).map fun r => r.statut

/-- An operation is *non-reviving* in a state when it does not move a
`"ANNULEE"` reservation to a different status without re-running the
capacity check: a status-only Amend must not change a cancelled reservation
to a non-cancelled status, and Confirm / Pay must not target a cancelled
reservation.  (An Amend that also changes the seat count re-validates the
full new seat count against the capacity, so it needs no restriction.) -/
def noReviveB (db : DB) : AdminOp → Bool
  | .amend rid p =>
    match p.seats, p.statut with
    | none, some st => st == "ANNULEE" || !(statusOf db rid == some "ANNULEE")
    | _, _ => true
  | .confirm rid => !(statusOf db rid == some "ANNULEE")
  | .pay _ rid _ => !(statusOf db rid == some "ANNULEE")
  | _ => true

/-- Every operation of the trace is non-reviving in the state it runs in. -/
def safeTrace (db : DB) : List AdminOp → Bool
  | [] => true
  | op :: rest => noReviveB db op && safeTrace (applyOp db op) rest

/-- Modelled from the spec's words (claim C7, spec §4.5 with the Capacity
Ledger contract of §4.1), for comparison with the code's `avg_load_factor`:
per-flight load factor `occupied_seats / capacity * 100` where
`occupied_seats` counts only reservations with status ≠ `CANCELLED`,
averaged over the day's flights with positive known capacity, `0` when no
flight qualifies. -/
def spec_avg_load_factor (db : DB) (today : Nat) : ℚ :=
  let lfs : List ℚ :=
    (db.vols.filter fun v => v.dateDepart == today).filterMap fun v =>
      match findAvion db.avions v.avionId with
      | some a =>
          if 0 < a.capacite then
            some ((occupied_seats db.reservations v.id : ℚ) / (a.capacite : ℚ) * 100)
          else none
      | none => none
  if lfs.isEmpty then 0 else lfs.sum / (lfs.length : ℚ)

/-- The amended reading of claim C7 forced by the code: identical to
`spec_avg_load_factor` except that the per-flight seat count sums over *all*
reservations of the flight, cancelled ones included. -/
def spec_avg_load_factor_all_statuses (db : DB) (today : Nat) : ℚ :=
  let lfs : List ℚ :=
    (db.vols.filter fun v => v.dateDepart == today).filterMap fun v =>
      match findAvion db.avions v.avionId with
      | some a =>
          if 0 < a.capacite then
            some ((seats_booked_all db.reservations v.id : ℚ) / (a.capacite : ℚ) * 100)
          else none
      | none => none
  if lfs.isEmpty then 0 else lfs.sum / (lfs.length : ℚ)

/-! ## Concrete fixtures for counterexamples and witnesses -/

/-- A one-seat aircraft. -/
def avionCap1 : Avion := ⟨1, "Dash-8", 1, "disponible", some "JetCongo"⟩

/-- A ten-seat aircraft. -/
def avionCap10 : Avion := ⟨1, "Dash-8", 10, "disponible", some "JetCongo"⟩

/-- An active flight on aircraft 1, unit fare 100, departing day 0. -/
def volGomaKin : Vol := ⟨1, "Goma", "Kinshasa", 0, 100, "actif", 1⟩

/-- Empty bookings over the one-seat aircraft. -/
def dbCap1 : DB := ⟨[avionCap1], [volGomaKin], [], [], [], 0⟩

/-- Empty bookings over the ten-seat aircraft. -/
def dbCap10 : DB := ⟨[avionCap10], [volGomaKin], [], [], [], 0⟩

/-- A fifty-seat aircraft, for the spec's amendment scenario. -/
def avionCap50 : Avion := ⟨1, "Q400", 50, "disponible", none⟩

/-- Fifty-seat flight with a single pending ten-seat reservation
(the spec's self-exclusion scenario). -/
def dbAmendScenario : DB :=
  ⟨[avionCap50], [volGomaKin], [⟨1, 7, 1, "EN_ATTENTE", some 10, some ((2025 : ℚ)/2)⟩],
   [], [], 2⟩

/-- The reservation row `create_reservation` persists for 4 seats on the
empty ten-seat flight. -/
def resW3 : Reservation :=
  ⟨0, 7, 1, "EN_ATTENTE", some 4, some (volGomaKin.prix * ((4 : Int) : ℚ) + taxe_fixe)⟩

/-- Ten-seat flight with a single PAID two-seat reservation. -/
def dbPaid : DB :=
  ⟨[avionCap10], [volGomaKin], [⟨1, 7, 1, "PAYE", some 2, some 212.5⟩], [], [], 2⟩

/-- Ten-seat flight with a single CANCELLED two-seat reservation. -/
def dbCancelled : DB :=
  ⟨[avionCap10], [volGomaKin], [⟨1, 7, 1, "ANNULEE", some 2, some 212.5⟩], [], [], 2⟩

/-- Ten-seat flight with a single PAID two-seat reservation that already has
a recorded payment. -/
def dbPaidWithPayment : DB :=
  ⟨[avionCap10], [volGomaKin], [⟨1, 7, 1, "PAYE", some 2, some ((425 : ℚ)/2)⟩],
   [⟨(425 : ℚ)/2, 1, "099000000"⟩], ["Mobile Money"], 2⟩

/-- Ten-seat flight with a CANCELLED two-seat reservation whose stored total
is `NULL`, and no payment yet. -/
def dbCancelledNullTotal : DB :=
  ⟨[avionCap10], [volGomaKin], [⟨1, 7, 1, "ANNULEE", some 2, none⟩], [], [], 2⟩

/-- An aircraft-1 flight that is already cancelled, for the cascade scenario. -/
def volCancelled : Vol := ⟨2, "Goma", "Bukavu", 0, 80, "annule", 1⟩

/-- Fleet state with one active and one cancelled flight on the same
ten-seat aircraft. -/
def dbCascade : DB := ⟨[avionCap10], [volGomaKin, volCancelled], [], [], [], 0⟩

/-- Ten-seat flight with one CANCELLED five-seat reservation, for the load
factor report. -/
def dbLoad : DB :=
  ⟨[avionCap10], [volGomaKin], [⟨1, 7, 1, "ANNULEE", some 5, none⟩], [], [], 2⟩

/-- Fill the single seat, cancel, refill it, then revive the cancelled
reservation by a status-only amendment: the flight ends up with 2
non-cancelled seats on a capacity-1 aircraft. -/
def reviveTrace : List AdminOp :=
  [.create 7 1 1, .cancel 0, .create 8 1 1, .amend 0 ⟨none, some "EN_ATTENTE"⟩]

/-! ## Sum decomposition lemmas for the capacity ledger -/

theorem occupied_seats_eq_sum (l : List Reservation) (vid : Nat) :
    occupied_seats l vid = (l.map (contrib vid)).sum := by
  induction l with
  | nil => rfl
  | cons r t ih =>
    unfold occupied_seats at ih ⊢
    rw [List.filter_cons]
    by_cases h1 : r.volId = vid <;> by_cases h2 : r.statut = "ANNULEE" <;>
      simp [contrib, resSeats, h1, h2, ih]

theorem occupied_excluding_eq_sum (l : List Reservation) (vid rid : Nat) :
    occupied_seats_excluding l vid rid = (l.map (contribEx vid rid)).sum := by
  induction l with
  | nil => rfl
  | cons r t ih =>
    unfold occupied_seats_excluding at ih ⊢
    rw [List.filter_cons]
    by_cases h1 : r.volId = vid <;> by_cases h2 : r.statut = "ANNULEE" <;>
      by_cases h3 : r.id = rid <;>
      simp [contribEx, contrib, resSeats, h1, h2, h3, ih]

theorem occupied_append (l : List Reservation) (r : Reservation) (vid : Nat) :
    occupied_seats (l ++ [r]) vid = occupied_seats l vid + contrib vid r := by
  rw [occupied_seats_eq_sum, occupied_seats_eq_sum, List.map_append, List.sum_append]
  simp

theorem update_map_id_of_not_mem (l : List Reservation) (rid : Nat)
    (f : Reservation → Reservation) (h : ∀ r ∈ l, r.id ≠ rid) :
    (l.map fun r => if r.id == rid then f r else r) = l := by
  induction l with
  | nil => rfl
  | cons a t ih =>
    have ha : ¬ a.id = rid := h a (List.mem_cons_self a t)
    simp only [List.map_cons]
    rw [if_neg (by simpa using ha), ih fun r hr => h r (List.mem_cons_of_mem a hr)]

theorem sum_update (l : List Reservation) (rid : Nat) (f : Reservation → Reservation)
    (r₀ : Reservation) (hmem : r₀ ∈ l) (hid : r₀.id = rid)
    (hnd : (l.map fun r => r.id).Nodup) (vid : Nat) :
    ((l.map fun r => if r.id == rid then f r else r).map (contrib vid)).sum
      = (l.map (contribEx vid rid)).sum + contrib vid (f r₀) := by
  induction l with
  | nil => cases hmem
  | cons a t ih =>
    rw [List.map_cons, List.nodup_cons] at hnd
    obtain ⟨hnotin, hndt⟩ := hnd
    by_cases ha : a.id = rid
    · have hr₀ : r₀ = a := by
        rcases List.mem_cons.mp hmem with h | h
        · exact h
        · exact absurd (by rw [ha, ← hid]; exact List.mem_map_of_mem (fun r => r.id) h) hnotin
      have htail : ∀ r ∈ t, r.id ≠ rid := by
        intro r hr hcontra
        exact hnotin (by rw [ha, ← hcontra]; exact List.mem_map_of_mem (fun r => r.id) hr)
      rw [List.map_cons, if_pos (by simpa using ha), update_map_id_of_not_mem t rid f htail,
        List.map_cons, List.sum_cons, List.map_cons, List.sum_cons]
      have hmapeq : t.map (contribEx vid rid) = t.map (contrib vid) :=
        List.map_congr_left fun r hr => by simp [contribEx, htail r hr]
      have hzero : contribEx vid rid a = 0 := by simp [contribEx, ha]
      rw [hmapeq, hr₀, hzero]
      ring
    · have hmem' : r₀ ∈ t := by
        rcases List.mem_cons.mp hmem with h | h
        · exact absurd (h ▸ hid) ha
        · exact h
      rw [List.map_cons, if_neg (by simpa using ha), List.map_cons, List.sum_cons,
        List.map_cons, List.sum_cons, ih hmem' hndt]
      have hae : contribEx vid rid a = contrib vid a := by simp [contribEx, ha]
      rw [hae]
      ring

theorem sum_decompose (l : List Reservation) (rid : Nat) (r₀ : Reservation)
    (hmem : r₀ ∈ l) (hid : r₀.id = rid)
    (hnd : (l.map fun r => r.id).Nodup) (vid : Nat) :
    (l.map (contrib vid)).sum = (l.map (contribEx vid rid)).sum + contrib vid r₀ := by
  have h := sum_update l rid id r₀ hmem hid hnd vid
  simpa using h

theorem ids_map_update (l : List Reservation) (rid : Nat) (f : Reservation → Reservation)
    (hf : ∀ r, (f r).id = r.id) :
    ((l.map fun r => if r.id == rid then f r else r).map fun r => r.id)
      = l.map fun r => r.id := by
  rw [List.map_map]
  exact List.map_congr_left fun r _ => by
    by_cases h : r.id = rid <;> simp [Function.comp, h, hf]

theorem find_eq_of_mem_nodup (l : List Reservation) (r₀ : Reservation) (rid : Nat)
    (hmem : r₀ ∈ l) (hid : r₀.id = rid) (hnd : (l.map fun r => r.id).Nodup) :
    l.find? (fun r => r.id == rid) = some r₀ := by
  induction l with
  | nil => cases hmem
  | cons a t ih =>
    rw [List.map_cons, List.nodup_cons] at hnd
    obtain ⟨hnotin, hndt⟩ := hnd
    by_cases ha : a.id = rid
    · have hr₀ : r₀ = a := by
        rcases List.mem_cons.mp hmem with h | h
        · exact h
        · exact absurd (by rw [ha, ← hid]; exact List.mem_map_of_mem (fun r => r.id) h) hnotin
      simp [List.find?_cons, ha, hr₀]
    · have hmem' : r₀ ∈ t := by
        rcases List.mem_cons.mp hmem with h | h
        · exact absurd (h ▸ hid) ha
        · exact h
      simp [List.find?_cons, ha, ih hmem' hndt]

/-! ## Preservation of the capacity invariant (claim C1) -/

theorem applyOp_of_error {db : DB} {op : AdminOp} {e : ApiError}
    (h : runOp db op = .error e) : applyOp db op = db := by
  unfold applyOp; rw [h]

theorem applyOp_of_ok {db db' : DB} {op : AdminOp}
    (h : runOp db op = .ok db') : applyOp db op = db' := by
  unfold applyOp; rw [h]

theorem contrib_status_set_le {r₀ : Reservation} {st : String} {vid : Nat}
    (h0 : 0 ≤ resSeats r₀)
    (hok : st = "ANNULEE" ∨ r₀.statut ≠ "ANNULEE") :
    contrib vid { r₀ with statut := st } ≤ contrib vid r₀ := by
  unfold contrib
  rcases hok with h | h <;> split_ifs <;> simp_all [resSeats]

/-- A status overwrite that is either a cancellation or applies to a
non-cancelled reservation never increases any flight's non-cancelled seat
sum, and preserves well-formedness; `db'` is the committed state (possibly
also changing payment tables, which neither `WF` nor the invariant read). -/
theorem WF_capInv_status_set (db db' : DB) (rid : Nat) (st : String) (r₀ : Reservation)
    (hmem : r₀ ∈ db.reservations) (hid : r₀.id = rid)
    (hres : db'.reservations
      = db.reservations.map fun r => if r.id == rid then { r with statut := st } else r)
    (hvols : db'.vols = db.vols) (havions : db'.avions = db.avions)
    (hnext : db'.nextReservationId = db.nextReservationId)
    (hwf : WF db) (hinv : capacityInvariant db)
    (hok : st = "ANNULEE" ∨ r₀.statut ≠ "ANNULEE") :
    WF db' ∧ capacityInvariant db' := by
  obtain ⟨hpos, hlt, hnd, hvnd⟩ := hwf
  have hids : (db'.reservations.map fun r => r.id) = db.reservations.map fun r => r.id := by
    rw [hres]; exact ids_map_update _ _ _ fun r => rfl
  have hle : ∀ vid, occupied_seats db'.reservations vid
      ≤ occupied_seats db.reservations vid := by
    intro vid
    rw [hres, occupied_seats_eq_sum, occupied_seats_eq_sum]
    have hupd := sum_update db.reservations rid (fun r => { r with statut := st })
      r₀ hmem hid hnd vid
    have hdec := sum_decompose db.reservations rid r₀ hmem hid hnd vid
    have hcle := @contrib_status_set_le r₀ st vid (hpos r₀ hmem) hok
    omega
  refine ⟨⟨?_, ?_, ?_, ?_⟩, ?_⟩
  · intro r hr
    rw [hres] at hr
    obtain ⟨r', hr', rfl⟩ := List.mem_map.mp hr
    have : resSeats (if r'.id == rid then { r' with statut := st } else r') = resSeats r' := by
      by_cases h : r'.id = rid <;> simp [resSeats, h]
    rw [this]; exact hpos r' hr'
  · intro i hi
    rw [hids] at hi; rw [hnext]; exact hlt i hi
  · rw [hids]; exact hnd
  · rw [hvols]; exact hvnd
  · intro v hv
    rw [hvols] at hv
    have hvOk := hinv v hv
    unfold volOk at hvOk ⊢
    rw [havions]
    cases hfa : findAvion db.avions v.avionId with
    | none => simp [Option.all]
    | some a =>
      rw [hfa] at hvOk
      simp only [Option.all, decide_eq_true_eq] at hvOk ⊢
      exact le_trans (hle v.id) hvOk



theorem step_cancel (db : DB) (rid : Nat)
    (hwf : WF db) (hinv : capacityInvariant db) :
    WF (applyOp db (.cancel rid)) ∧ capacityInvariant (applyOp db (.cancel rid)) := by
  cases hr : findReservation db rid with
  | none =>
    have he : runOp db (.cancel rid) = .error (.notFound "Réservation introuvable.") := by
      simp only [runOp]; unfold cancel_reservation_admin; rw [hr]
    rw [applyOp_of_error he]; exact ⟨hwf, hinv⟩
  | some r₀ =>
    have hok : runOp db (.cancel rid) = .ok { db with reservations := (db.reservations.map
        (fun r => if r.id == rid then { r with statut := "ANNULEE" } else r)) } := by
      simp only [runOp]; unfold cancel_reservation_admin; rw [hr]
    rw [applyOp_of_ok hok]
    exact WF_capInv_status_set db _ rid "ANNULEE" r₀
      (List.mem_of_find?_eq_some hr) (by simpa using List.find?_some hr)
      rfl rfl rfl rfl hwf hinv (Or.inl rfl)

theorem step_confirm (db : DB) (rid : Nat)
    (hwf : WF db) (hinv : capacityInvariant db)
    (hs : noReviveB db (.confirm rid) = true) :
    WF (applyOp db (.confirm rid)) ∧ capacityInvariant (applyOp db (.confirm rid)) := by
  cases hr : findReservation db rid with
  | none =>
    have he : runOp db (.confirm rid) = .error (.notFound "Réservation introuvable.") := by
      simp only [runOp]; unfold confirm_reservation_admin; rw [hr]
    rw [applyOp_of_error he]; exact ⟨hwf, hinv⟩
  | some r₀ =>
    have hst : r₀.statut ≠ "ANNULEE" := by
      simp [noReviveB, statusOf, hr] at hs
      exact hs
    have hok : runOp db (.confirm rid) = .ok { db with reservations := (db.reservations.map
        (fun r => if r.id == rid then { r with statut := "CONFIRMEE" } else r)) } := by
      simp only [runOp]; unfold confirm_reservation_admin; rw [hr]
    rw [applyOp_of_ok hok]
    exact WF_capInv_status_set db _ rid "CONFIRMEE" r₀
      (List.mem_of_find?_eq_some hr) (by simpa using List.find?_some hr)
      rfl rfl rfl rfl hwf hinv (Or.inr hst)

theorem step_pay (db : DB) (u rid : Nat) (ph : String)
    (hwf : WF db) (hinv : capacityInvariant db)
    (hs : noReviveB db (.pay u rid ph) = true) :
    WF (applyOp db (.pay u rid ph)) ∧ capacityInvariant (applyOp db (.pay u rid ph)) := by
  cases hr : db.reservations.find? (fun r => r.id == rid && r.utilisateurId == u) with
  | none =>
    have he : runOp db (.pay u rid ph) = .error (.notFound "Réservation introuvable.") := by
      simp only [runOp]; unfold process_payment; rw [hr]
    rw [applyOp_of_error he]; exact ⟨hwf, hinv⟩
  | some r₀ =>
    by_cases hdup : (db.paiements.any fun p => p.reservationId == rid) = true
    · have he : runOp db (.pay u rid ph) = .error .duplicatePayment := by
        simp only [runOp]; unfold process_payment; simp only [hr]
        rw [if_pos hdup]
      rw [applyOp_of_error he]; exact ⟨hwf, hinv⟩
    · have hok : runOp db (.pay u rid ph) = .ok { db with
          modePaiements := (if db.modePaiements.contains "Mobile Money" then db.modePaiements
            else db.modePaiements ++ ["Mobile Money"]),
          paiements := (db.paiements ++
            [{ montant := r₀.totalPayer.getD 0, reservationId := r₀.id,
               phoneNumber := ph }]),
          reservations := (db.reservations.map
            (fun r => if r.id == r₀.id then { r with statut := "PAYE" } else r)) } := by
        simp only [runOp]; unfold process_payment; simp only [hr]
        rw [if_neg hdup]
      rw [applyOp_of_ok hok]
      have hmem := List.mem_of_find?_eq_some hr
      have hid : r₀.id = rid := by
        have hp := List.find?_some hr
        rw [Bool.and_eq_true] at hp
        simpa using hp.1
      have hfr : findReservation db rid = some r₀ :=
        find_eq_of_mem_nodup db.reservations r₀ rid hmem hid hwf.2.2.1
      have hst : r₀.statut ≠ "ANNULEE" := by
        simp [noReviveB, statusOf, hfr] at hs
        exact hs
      exact WF_capInv_status_set db _ rid "PAYE" r₀ hmem hid
        (by rw [hid]) rfl rfl rfl hwf hinv (Or.inr hst)


theorem step_amend (db : DB) (rid : Nat) (p : AdminReservationUpdate)
    (hwf : WF db) (hinv : capacityInvariant db)
    (hs : noReviveB db (.amend rid p) = true) :
    WF (applyOp db (.amend rid p)) ∧ capacityInvariant (applyOp db (.amend rid p)) := by
  obtain ⟨hpos, hlt, hnd, hvnd⟩ := hwf
  cases hr : findReservation db rid with
  | none =>
    have he : runOp db (.amend rid p) = .error (.notFound "Réservation introuvable.") := by
      simp only [runOp]; unfold update_reservation_admin; rw [hr]
    rw [applyOp_of_error he]; exact ⟨⟨hpos, hlt, hnd, hvnd⟩, hinv⟩
  | some r₀ =>
    have hmem := List.mem_of_find?_eq_some hr
    have hid : r₀.id = rid := by simpa using List.find?_some hr
    cases hps : p.seats with
    | none =>
      cases hpst : p.statut with
      | none =>
        have hok : runOp db (.amend rid p) = .ok db := by
          simp only [runOp]; unfold update_reservation_admin; simp only [hr, hps, hpst]
        rw [applyOp_of_ok hok]; exact ⟨⟨hpos, hlt, hnd, hvnd⟩, hinv⟩
      | some st =>
        have hok : runOp db (.amend rid p) = .ok { db with reservations := (db.reservations.map
            (fun r => if r.id == rid then { r with statut := st } else r)) } := by
          simp only [runOp]; unfold update_reservation_admin; simp only [hr, hps, hpst]
        rw [applyOp_of_ok hok]
        have hsafe : st = "ANNULEE" ∨ r₀.statut ≠ "ANNULEE" := by
          simp [noReviveB, hps, hpst, statusOf, hr] at hs
          rcases hs with h | h
          · exact Or.inl h
          · exact Or.inr h
        exact WF_capInv_status_set db _ rid st r₀ hmem hid rfl rfl rfl rfl
          ⟨hpos, hlt, hnd, hvnd⟩ hinv hsafe
    | some s =>
      by_cases h2 : s ≤ 0
      · have he : runOp db (.amend rid p) = .error .nonPositiveSeats := by
          simp only [runOp]; unfold update_reservation_admin; simp only [hr, hps]
          rw [if_pos h2]
        rw [applyOp_of_error he]; exact ⟨⟨hpos, hlt, hnd, hvnd⟩, hinv⟩
      · cases hv : db.vols.find? (fun v => v.id == r₀.volId) with
        | none =>
          have he : runOp db (.amend rid p) = .error .invalidAircraftCapacity := by
            simp only [runOp]; unfold update_reservation_admin; simp only [hr, hps]
            rw [if_neg h2]; simp only [hv]
          rw [applyOp_of_error he]; exact ⟨⟨hpos, hlt, hnd, hvnd⟩, hinv⟩
        | some vol =>
          cases ha : findAvion db.avions vol.avionId with
          | none =>
            have he : runOp db (.amend rid p) = .error .invalidAircraftCapacity := by
              simp only [runOp]; unfold update_reservation_admin; simp only [hr, hps]
              rw [if_neg h2]; simp only [hv, ha]
            rw [applyOp_of_error he]; exact ⟨⟨hpos, hlt, hnd, hvnd⟩, hinv⟩
          | some avion =>
            by_cases h3 : avion.capacite ≤ 0
            · have he : runOp db (.amend rid p) = .error .invalidAircraftCapacity := by
                simp only [runOp]; unfold update_reservation_admin; simp only [hr, hps]
                rw [if_neg h2]; simp only [hv, ha]; rw [if_pos h3]
              rw [applyOp_of_error he]; exact ⟨⟨hpos, hlt, hnd, hvnd⟩, hinv⟩
            · by_cases h4 : s >
                  avion.capacite - occupied_seats_excluding db.reservations vol.id r₀.id
              · have he : runOp db (.amend rid p) = .error (.capacityExceeded
                    (avion.capacite -
                      occupied_seats_excluding db.reservations vol.id r₀.id)) := by
                  simp only [runOp]; unfold update_reservation_admin; simp only [hr, hps]
                  rw [if_neg h2]; simp only [hv, ha]; rw [if_neg h3, if_pos h4]
                rw [applyOp_of_error he]; exact ⟨⟨hpos, hlt, hnd, hvnd⟩, hinv⟩
              · have hok : runOp db (.amend rid p) = .ok { db with
                    reservations := (db.reservations.map (fun r =>
                      if r.id == rid then
                        amendRow s (vol.prix * (s : ℚ) + taxe_fixe) p.statut r
                      else r)) } := by
                  simp only [runOp]; unfold update_reservation_admin; simp only [hr, hps]
                  rw [if_neg h2]; simp only [hv, ha]; rw [if_neg h3, if_neg h4]
                rw [applyOp_of_ok hok]
                have hvolmem : vol ∈ db.vols := List.mem_of_find?_eq_some hv
                have hvid : vol.id = r₀.volId := by simpa using List.find?_some hv
                have hs0 : (0 : Int) ≤ s := by omega
                have hids := ids_map_update db.reservations rid
                  (amendRow s (vol.prix * (s : ℚ) + taxe_fixe) p.statut)
                  (fun r => rfl)
                refine ⟨⟨?_, ?_, ?_, ?_⟩, ?_⟩
                · intro r hrm
                  obtain ⟨r', hr', rfl⟩ := List.mem_map.mp hrm
                  by_cases h : r'.id = rid
                  · simp [resSeats, amendRow, h]; omega
                  · simp [resSeats, h]; exact hpos r' hr'
                · intro i hi
                  rw [hids] at hi; exact hlt i hi
                · rw [hids]; exact hnd
                · exact hvnd
                · intro v hv'
                  unfold volOk
                  cases hfa : findAvion db.avions v.avionId with
                  | none => simp [Option.all]
                  | some a =>
                    simp only [Option.all, decide_eq_true_eq]
                    have hupd := sum_update db.reservations rid
                      (amendRow s (vol.prix * (s : ℚ) + taxe_fixe) p.statut)
                      r₀ hmem hid hnd v.id
                    have hdec := sum_decompose db.reservations rid r₀ hmem hid hnd v.id
                    rw [occupied_seats_eq_sum]
                    rw [hupd]
                    by_cases hveq : v.id = vol.id
                    · have hveq' : v = vol :=
                        List.inj_on_of_nodup_map hvnd hv' hvolmem hveq
                      have haeq : a = avion := by
                        rw [hveq'] at hfa
                        rw [ha] at hfa
                        exact (Option.some.inj hfa).symm
                      have hex : (db.reservations.map (contribEx v.id rid)).sum
                          = occupied_seats_excluding db.reservations vol.id r₀.id := by
                        rw [occupied_excluding_eq_sum, hveq, hid]
                      have hcb : contrib v.id
                          (amendRow s (vol.prix * (s : ℚ) + taxe_fixe) p.statut r₀) ≤ s := by
                        unfold contrib resSeats amendRow
                        split_ifs with h
                        · simp
                        · omega
                      rw [haeq] at *
                      omega
                    · have hnv : r₀.volId ≠ v.id := by
                        rw [← hvid]; exact fun hcontra => hveq (hcontra ▸ rfl)
                      have hc1 : contrib v.id
                          (amendRow s (vol.prix * (s : ℚ) + taxe_fixe) p.statut r₀) = 0 := by
                        unfold contrib amendRow
                        rw [if_neg]
                        intro hcon
                        exact hnv hcon.1
                      have hc2 : contrib v.id r₀ = 0 := by
                        unfold contrib
                        rw [if_neg]
                        intro hcon
                        exact hnv hcon.1
                      have hvOk := hinv v hv'
                      unfold volOk at hvOk
                      rw [hfa] at hvOk
                      simp only [Option.all, decide_eq_true_eq] at hvOk
                      rw [occupied_seats_eq_sum] at hvOk
                      omega

theorem step_create (db : DB) (u v : Nat) (s : Int)
    (hwf : WF db) (hinv : capacityInvariant db) :
    WF (applyOp db (.create u v s)) ∧ capacityInvariant (applyOp db (.create u v s)) := by
  obtain ⟨hpos, hlt, hnd, hvnd⟩ := hwf
  cases hvol : findVolActif db v with
  | none =>
    have he : runOp db (.create u v s) = .error (.notFound "Vol introuvable.") := by
      simp only [runOp]; unfold create_reservation; rw [hvol]
    rw [applyOp_of_error he]; exact ⟨⟨hpos, hlt, hnd, hvnd⟩, hinv⟩
  | some vol =>
    cases ha : findAvion db.avions vol.avionId with
    | none =>
      have he : runOp db (.create u v s) = .error .invalidAircraftCapacity := by
        simp only [runOp]; unfold create_reservation; simp only [hvol, ha]
      rw [applyOp_of_error he]; exact ⟨⟨hpos, hlt, hnd, hvnd⟩, hinv⟩
    | some avion =>
      by_cases h1 : avion.capacite ≤ 0
      · have he : runOp db (.create u v s) = .error .invalidAircraftCapacity := by
          simp only [runOp]; unfold create_reservation; simp only [hvol, ha]
          rw [if_pos h1]
        rw [applyOp_of_error he]; exact ⟨⟨hpos, hlt, hnd, hvnd⟩, hinv⟩
      · by_cases h2 : s ≤ 0
        · have he : runOp db (.create u v s) = .error .nonPositiveSeats := by
            simp only [runOp]; unfold create_reservation; simp only [hvol, ha]
            rw [if_neg h1, if_pos h2]
          rw [applyOp_of_error he]; exact ⟨⟨hpos, hlt, hnd, hvnd⟩, hinv⟩
        · by_cases h3 : s > avion.capacite - occupied_seats db.reservations vol.id
          · have he : runOp db (.create u v s) = .error (.capacityExceeded
                (avion.capacite - occupied_seats db.reservations vol.id)) := by
              simp only [runOp]; unfold create_reservation; simp only [hvol, ha]
              rw [if_neg h1, if_neg h2, if_pos h3]
            rw [applyOp_of_error he]; exact ⟨⟨hpos, hlt, hnd, hvnd⟩, hinv⟩
          · have hok : runOp db (.create u v s) = .ok { db with
                reservations := (db.reservations ++
                  [{ id := db.nextReservationId, utilisateurId := u, volId := vol.id,
                     statut := "EN_ATTENTE", nombrePlace := some s,
                     totalPayer := some (vol.prix * (s : ℚ) + taxe_fixe) }]),
                nextReservationId := db.nextReservationId + 1 } := by
              simp only [runOp]; unfold create_reservation; simp only [hvol, ha]
              rw [if_neg h1, if_neg h2, if_neg h3]
            rw [applyOp_of_ok hok]
            have hvolmem : vol ∈ db.vols := by
              have := List.mem_of_find?_eq_some hvol
              exact this
            have hids : ((db.reservations ++
                [({ id := db.nextReservationId, utilisateurId := u, volId := vol.id,
                    statut := "EN_ATTENTE", nombrePlace := some s,
                    totalPayer := some (vol.prix * (s : ℚ) + taxe_fixe) } :
                  Reservation)]).map fun r => r.id)
                = (db.reservations.map fun r => r.id) ++ [db.nextReservationId] := by
              rw [List.map_append]
              rfl
            refine ⟨⟨?_, ?_, ?_, ?_⟩, ?_⟩
            · intro r hrm
              rcases List.mem_append.mp hrm with h | h
              · exact hpos r h
              · rcases List.mem_singleton.mp h with rfl
                simp [resSeats]; omega
            · intro i hi
              rw [hids] at hi
              show i < db.nextReservationId + 1
              rcases List.mem_append.mp hi with h | h
              · have := hlt i h; omega
              · rcases List.mem_singleton.mp h with rfl
                omega
            · rw [hids]
              rw [List.nodup_append]
              refine ⟨hnd, List.nodup_singleton _, ?_⟩
              intro i hi hi'
              rcases List.mem_singleton.mp hi' with rfl
              have := hlt _ hi
              omega
            · exact hvnd
            · intro v' hv'
              unfold volOk
              cases hfa : findAvion db.avions v'.avionId with
              | none => simp [Option.all]
              | some a =>
                simp only [Option.all, decide_eq_true_eq]
                rw [occupied_append]
                by_cases hveq : v'.id = vol.id
                · have hveq' : v' = vol :=
                    List.inj_on_of_nodup_map hvnd hv' hvolmem hveq
                  have haeq : a = avion := by
                    rw [hveq'] at hfa
                    rw [ha] at hfa
                    exact (Option.some.inj hfa).symm
                  have hcnew : contrib v'.id
                      ({ id := db.nextReservationId, utilisateurId := u, volId := vol.id,
                         statut := "EN_ATTENTE", nombrePlace := some s,
                         totalPayer := some (vol.prix * (s : ℚ) + taxe_fixe) } :
                        Reservation) = s := by
                    unfold contrib resSeats
                    rw [if_pos]
                    · rfl
                    · exact ⟨hveq.symm ▸ rfl, by simp⟩
                  rw [hcnew, haeq, hveq]
                  omega
                · have hcnew : contrib v'.id
                      ({ id := db.nextReservationId, utilisateurId := u, volId := vol.id,
                         statut := "EN_ATTENTE", nombrePlace := some s,
                         totalPayer := some (vol.prix * (s : ℚ) + taxe_fixe) } :
                        Reservation) = 0 := by
                    unfold contrib
                    rw [if_neg]
                    intro hcon
                    exact hveq (hcon.1.symm)
                  have hvOk := hinv v' hv'
                  unfold volOk at hvOk
                  rw [hfa] at hvOk
                  simp only [Option.all, decide_eq_true_eq] at hvOk
                  rw [hcnew]
                  omega

theorem step_preserves (db : DB) (op : AdminOp)
    (hwf : WF db) (hinv : capacityInvariant db) (hs : noReviveB db op = true) :
    WF (applyOp db op) ∧ capacityInvariant (applyOp db op) := by
  cases op with
  | create u v s => exact step_create db u v s hwf hinv
  | amend rid p => exact step_amend db rid p hwf hinv hs
  | confirm rid => exact step_confirm db rid hwf hinv hs
  | cancel rid => exact step_cancel db rid hwf hinv
  | pay u rid ph => exact step_pay db u rid ph hwf hinv hs

theorem find_update (l : List Reservation) (rid : Nat) (f : Reservation → Reservation)
    (hf : ∀ r, (f r).id = r.id) (r : Reservation)
    (hr : l.find? (fun x => x.id == rid) = some r) :
    (l.map fun x => if x.id == rid then f x else x).find? (fun x => x.id == rid)
      = some (f r) := by
  rw [List.find?_map]
  have hpg : ((fun x : Reservation => x.id == rid) ∘ fun x => if x.id == rid then f x else x)
      = fun x : Reservation => x.id == rid := by
    funext x
    by_cases h : x.id = rid <;> simp [Function.comp, h, hf]
  rw [hpg, hr]
  have hid : r.id = rid := by simpa using List.find?_some hr
  simp [hid]

/-- **Claim C1, counterexample.**  Starting from a well-formed state that
satisfies the capacity invariant (one-seat aircraft, no reservations),
the operation sequence Create(1 seat) – Cancel – Create(1 seat) –
Amend(status back to `EN_ATTENTE`) ends with 2 non-cancelled seats booked on
a capacity-1 flight: the invariant does not survive every sequence of
Create, Amend, Confirm, Cancel, Pay. -/
theorem capacity_invariant_cex :
    capacityInvariant dbCap1 ∧ WF dbCap1 ∧
    ¬ capacityInvariant (applyOps dbCap1 reviveTrace) ∧
    occupied_seats (applyOps dbCap1 reviveTrace).reservations 1 = 2 ∧
    avionCap1.capacite = 1 := by
  refine ⟨by decide, by decide, by decide, by decide, by decide⟩

/-- **Claim C1 (amended).**  For every flight, the sum of `seat_count` over
its non-cancelled reservations stays at most the aircraft capacity after any
sequence of Create, Amend, Confirm, Cancel and Pay, **provided** no
operation moves a reservation out of `CANCELLED` without re-running the
capacity check: a status-only Amend must not change a `CANCELLED`
reservation to a different status, and Confirm / Pay must not target a
`CANCELLED` reservation (an Amend that also changes the seat count is
unrestricted, because it re-validates the whole new seat count). -/
theorem capacity_invariant_of_noRevive (db : DB) (ops : List AdminOp)
    (hwf : WF db) (hinv : capacityInvariant db)
    (hsafe : safeTrace db ops = true) :
    capacityInvariant (applyOps db ops) := by
  induction ops generalizing db with
  | nil => exact hinv
  | cons op rest ih =>
    simp only [safeTrace, Bool.and_eq_true] at hsafe
    obtain ⟨h1, h2⟩ := hsafe
    obtain ⟨hwf', hinv'⟩ := step_preserves db op hwf hinv h1
    exact ih (applyOp db op) hwf' hinv' h2

/-- Witness for C1's amended theorem: a concrete non-reviving trace
(book the only seat, cancel, book it again) keeps the invariant. -/
theorem capacity_invariant_of_noRevive_witness :
    capacityInvariant (applyOps dbCap1 [.create 7 1 1, .cancel 0, .create 8 1 1]) :=
  capacity_invariant_of_noRevive dbCap1 [.create 7 1 1, .cancel 0, .create 8 1 1]
    (by decide) (by decide) (by decide)

/-- **Claim C2, counterexample.**  A seat-count change on a `PAYE` (PAID)
reservation is accepted, and a status-only Amend moves an `ANNULEE`
(CANCELLED) reservation to `CONFIRMEE` — both contradicting the claimed
terminal-state rules. -/
theorem amend_status_gate_cex :
    statusOf dbPaid 1 = some "PAYE" ∧
    (update_reservation_admin dbPaid 1 ⟨some 3, none⟩).isOk = true ∧
    statusOf dbCancelled 1 = some "ANNULEE" ∧
    (update_reservation_admin dbCancelled 1 ⟨none, some "CONFIRMEE"⟩).isOk = true ∧
    statusOf (applyOp dbCancelled (.amend 1 ⟨none, some "CONFIRMEE"⟩)) 1
      = some "CONFIRMEE" := by
  refine ⟨by decide, by decide, by decide, by decide, by decide⟩

/-- **Claim C2 (amended).**  `update_reservation_admin` performs no
status-based gating: for a reservation in a terminal state (`PAYE` or
`ANNULEE`), a requested status change is applied unconditionally (including
moving `ANNULEE` to any other status), and a seat-count change is accepted
subject only to the capacity rule. -/
theorem amend_terminal_not_gated (db : DB) (rid : Nat) (r : Reservation) (st : String)
    (s : Int) (vol : Vol) (avion : Avion)
    (hr : findReservation db rid = some r)
    (hterm : r.statut = "PAYE" ∨ r.statut = "ANNULEE")
    (hvol : db.vols.find? (fun v => v.id == r.volId) = some vol)
    (havion : findAvion db.avions vol.avionId = some avion)
    (hcap : 0 < avion.capacite) (hs : 0 < s)
    (hrem : s ≤ avion.capacite - occupied_seats_excluding db.reservations vol.id r.id) :
    (update_reservation_admin db rid ⟨none, some st⟩
      = .ok { db with reservations := (db.reservations.map
          (fun x => if x.id == rid then { x with statut := st } else x)) }) ∧
    (update_reservation_admin db rid ⟨some s, none⟩
      = .ok { db with reservations := (db.reservations.map
          (fun x => if x.id == rid then amendRow s (vol.prix * (s : ℚ) + taxe_fixe) none x
                    else x)) }) := by
  constructor
  · unfold update_reservation_admin
    simp only [hr]
  · unfold update_reservation_admin
    simp only [hr]
    rw [if_neg (by omega)]
    simp only [hvol, havion]
    rw [if_neg (by omega), if_neg (by omega)]

/-- Witness for C2's amended theorem on a concrete PAID reservation. -/
theorem amend_terminal_not_gated_witness :
    (update_reservation_admin dbPaid 1 ⟨none, some "EN_ATTENTE"⟩).isOk = true ∧
    (update_reservation_admin dbPaid 1 ⟨some 3, none⟩).isOk = true := by
  have h := amend_terminal_not_gated dbPaid 1 ⟨1, 7, 1, "PAYE", some 2, some 212.5⟩
    "EN_ATTENTE" 3 volGomaKin avionCap10 rfl (Or.inl rfl) rfl rfl
    (by decide) (by decide) (by decide)
  rw [h.1, h.2]
  exact ⟨rfl, rfl⟩

/-- **Claim C3.**  For an active flight with positive aircraft capacity and
`seats > 0`: if `seats` exceeds `remaining = capacite - occupied_seats`,
`create_reservation` fails with a capacity error whose message carries the
exact remaining count and persists nothing (the returned state is an error,
the database value is unchanged); otherwise it persists exactly one new
`EN_ATTENTE` (PENDING) reservation with that seat count. -/
theorem create_reservation_spec (db : DB) (userId volId : Nat) (seats : Int)
    (vol : Vol) (avion : Avion) (remaining : Int)
    (hvol : findVolActif db volId = some vol)
    (havion : findAvion db.avions vol.avionId = some avion)
    (hcap : 0 < avion.capacite) (hseats : 0 < seats)
    (hrem : remaining = avion.capacite - occupied_seats db.reservations vol.id) :
    (seats > remaining →
      create_reservation db userId volId seats = .error (.capacityExceeded remaining) ∧
      (ApiError.capacityExceeded remaining).detail =
        "Capacité insuffisante sur ce vol. Places restantes : "
          ++ toString remaining ++ ".") ∧
    (seats ≤ remaining →
      create_reservation db userId volId seats = .ok { db with
        reservations := (db.reservations ++
          [{ id := db.nextReservationId, utilisateurId := userId, volId := vol.id,
             statut := "EN_ATTENTE", nombrePlace := some seats,
             totalPayer := some (vol.prix * (seats : ℚ) + taxe_fixe) }]),
        nextReservationId := db.nextReservationId + 1 }) := by
  subst hrem
  constructor
  · intro hgt
    refine ⟨?_, rfl⟩
    unfold create_reservation
    simp only [hvol, havion]
    rw [if_neg (by omega), if_neg (by omega), if_pos hgt]
  · intro hle
    unfold create_reservation
    simp only [hvol, havion]
    rw [if_neg (by omega), if_neg (by omega), if_neg (by omega)]

/-- Witness for C3: on the empty ten-seat flight, requesting 11 seats is
rejected with `remaining = 10` in the message, and requesting 4 seats
persists the pending reservation. -/
theorem create_reservation_spec_witness :
    (create_reservation dbCap10 7 1 11 = .error (.capacityExceeded 10) ∧
      (ApiError.capacityExceeded 10).detail =
        "Capacité insuffisante sur ce vol. Places restantes : " ++ toString (10 : Int) ++ ".") ∧
    create_reservation dbCap10 7 1 4 = .ok { dbCap10 with
      reservations := ([resW3]),
      nextReservationId := 1 } := by
  constructor
  · exact (create_reservation_spec dbCap10 7 1 11 volGomaKin avionCap10 10
      rfl rfl (by decide) (by decide) (by decide)).1 (by decide)
  · exact (create_reservation_spec dbCap10 7 1 4 volGomaKin avionCap10 10
      rfl rfl (by decide) (by decide) (by decide)).2 (by decide)

/-- **Claim C4.**  The seat branch of `update_reservation_admin` computes
`remaining` as capacity minus the non-cancelled seat sum of the flight
*excluding the amended reservation itself*; it succeeds, storing the new
seat count together with a freshly recomputed total, exactly when
`new_seats ≤ remaining`, and otherwise fails with a capacity error carrying
that remaining value. -/
theorem amend_self_exclusion (db : DB) (rid : Nat) (r : Reservation)
    (vol : Vol) (avion : Avion) (s remaining : Int)
    (hr : findReservation db rid = some r)
    (hvol : db.vols.find? (fun v => v.id == r.volId) = some vol)
    (havion : findAvion db.avions vol.avionId = some avion)
    (hcap : 0 < avion.capacite) (hs : 0 < s)
    (hrem : remaining
      = avion.capacite - occupied_seats_excluding db.reservations vol.id r.id) :
    (s ≤ remaining →
      update_reservation_admin db rid ⟨some s, none⟩ = .ok { db with
        reservations := (db.reservations.map (fun x =>
          if x.id == rid then amendRow s (vol.prix * (s : ℚ) + taxe_fixe) none x
          else x)) }) ∧
    (s > remaining →
      update_reservation_admin db rid ⟨some s, none⟩
        = .error (.capacityExceeded remaining)) := by
  subst hrem
  constructor
  · intro hle
    unfold update_reservation_admin
    simp only [hr]
    rw [if_neg (by omega)]
    simp only [hvol, havion]
    rw [if_neg (by omega), if_neg (by omega)]
  · intro hgt
    unfold update_reservation_admin
    simp only [hr]
    rw [if_neg (by omega)]
    simp only [hvol, havion]
    rw [if_neg (by omega), if_pos hgt]

/-- Witness for C4, the spec's own scenario: capacity 50, a single
reservation A of 10 seats; Amend(A, 50) succeeds (remaining excluding A is
50), Amend(A, 51) fails with remaining = 50. -/
theorem amend_self_exclusion_witness :
    (update_reservation_admin dbAmendScenario 1 ⟨some 50, none⟩).isOk = true ∧
    update_reservation_admin dbAmendScenario 1 ⟨some 51, none⟩
      = .error (.capacityExceeded 50) := by
  constructor
  · rw [(amend_self_exclusion dbAmendScenario 1
      ⟨1, 7, 1, "EN_ATTENTE", some 10, some ((2025 : ℚ)/2)⟩ volGomaKin avionCap50 50 50
      rfl rfl rfl (by decide) (by decide) (by decide)).1 (by decide)]
    rfl
  · exact (amend_self_exclusion dbAmendScenario 1
      ⟨1, 7, 1, "EN_ATTENTE", some 10, some ((2025 : ℚ)/2)⟩ volGomaKin avionCap50 51 50
      rfl rfl rfl (by decide) (by decide) (by decide)).2 (by decide)

/-- **Claim C5.**  At-most-one payment per reservation: when the caller owns
the reservation and a payment already references it, `process_payment` fails
with the duplicate-payment error (returning an error, so no row is inserted
and the reservation's status is untouched); and a successful payment
preserves uniqueness of `Paiement.reservation_id` (the model of the
`unique=True` column constraint). -/
theorem pay_at_most_once (db : DB) (userId rid : Nat) (ph : String) (r : Reservation)
    (hres : db.reservations.find? (fun x => x.id == rid && x.utilisateurId == userId)
      = some r)
    (hnd : (db.paiements.map (fun p => p.reservationId)).Nodup) :
    ((db.paiements.any fun p => p.reservationId == rid) = true →
      process_payment db userId rid ph = .error .duplicatePayment) ∧
    (∀ db', process_payment db userId rid ph = .ok db' →
      (db'.paiements.map (fun p => p.reservationId)).Nodup) := by
  constructor
  · intro hdup
    unfold process_payment
    simp only [hres]
    rw [if_pos hdup]
  · intro db' hok
    unfold process_payment at hok
    simp only [hres] at hok
    by_cases hdup : (db.paiements.any fun p => p.reservationId == rid) = true
    · rw [if_pos hdup] at hok; cases hok
    · rw [if_neg hdup] at hok
      have hid : r.id = rid := by
        have hp := List.find?_some hres
        rw [Bool.and_eq_true] at hp
        simpa using hp.1
      have hdb : db' = { db with
          modePaiements := (if db.modePaiements.contains "Mobile Money" then db.modePaiements
            else db.modePaiements ++ ["Mobile Money"]),
          paiements := (db.paiements ++
            [{ montant := r.totalPayer.getD 0, reservationId := r.id, phoneNumber := ph }]),
          reservations := (db.reservations.map (fun x =>
            if x.id == r.id then { x with statut := "PAYE" } else x)) } :=
        (Except.ok.inj hok).symm
      subst hdb
      rw [List.map_append, List.nodup_append]
      refine ⟨hnd, by simp, ?_⟩
      intro i hi hi'
      rcases List.mem_singleton.mp hi' with rfl
      obtain ⟨p, hpmem, hpid⟩ := List.mem_map.mp hi
      apply hdup
      rw [List.any_eq_true]
      exact ⟨p, hpmem, by simp [hpid, hid]⟩

/-- Witness for C5: a second payment attempt on an already-paid reservation
is rejected as a duplicate. -/
theorem pay_at_most_once_witness :
    process_payment dbPaidWithPayment 7 1 "099000001" = .error .duplicatePayment :=
  (pay_at_most_once dbPaidWithPayment 7 1 "099000001"
    ⟨1, 7, 1, "PAYE", some 2, some ((425 : ℚ)/2)⟩ rfl (by decide)).1 (by decide)

/-- Shape of any successful seat-only amendment: the reservation and its
flight were found, and the committed state replaces the row by `amendRow`
with the recomputed total. -/
theorem amend_ok_shape (db db' : DB) (rid : Nat) (s : Int)
    (h : update_reservation_admin db rid ⟨some s, none⟩ = .ok db') :
    ∃ r vol, findReservation db rid = some r ∧
      db.vols.find? (fun v => v.id == r.volId) = some vol ∧
      db' = { db with reservations := (db.reservations.map (fun x =>
        if x.id == rid then amendRow s (vol.prix * (s : ℚ) + taxe_fixe) none x
        else x)) } := by
  unfold update_reservation_admin at h
  cases hr : findReservation db rid with
  | none => rw [hr] at h; cases h
  | some r =>
    simp only [hr] at h
    by_cases hc2 : s ≤ 0
    · rw [if_pos hc2] at h; cases h
    · rw [if_neg hc2] at h
      cases hvol : db.vols.find? (fun v => v.id == r.volId) with
      | none => rw [hvol] at h; cases h
      | some vol =>
        simp only [hvol] at h
        cases havion : findAvion db.avions vol.avionId with
        | none => rw [havion] at h; cases h
        | some avion =>
          simp only [havion] at h
          by_cases hc3 : avion.capacite ≤ 0
          · rw [if_pos hc3] at h; cases h
          · rw [if_neg hc3] at h
            by_cases hc4 : s >
                avion.capacite - occupied_seats_excluding db.reservations vol.id r.id
            · rw [if_pos hc4] at h; cases h
            · rw [if_neg hc4] at h
              exact ⟨r, vol, rfl, hvol, (Except.ok.inj h).symm⟩

/-- **Claim C6.**  Pricing is exact and drift-free: a successful creation
stores `total = prix * seats + taxe_fixe` (with `taxe_fixe = 12.50`,
computed in exact decimal arithmetic, here `ℚ`); a successful seat amendment
replaces the stored total in full by the same formula; and amending twice
with the same seat count stores the identical reservation record both times
(no drift). -/
theorem pricing_exact_total (db : DB) (userId volId rid : Nat) (s : Int)
    (db₁ db₂ : DB) :
    (create_reservation db userId volId s = .ok db₁ →
      ∃ vol r', findVolActif db volId = some vol ∧
        db₁.reservations = db.reservations ++ [r'] ∧
        r'.totalPayer = some (vol.prix * (s : ℚ) + taxe_fixe)) ∧
    (update_reservation_admin db rid ⟨some s, none⟩ = .ok db₁ →
      update_reservation_admin db₁ rid ⟨some s, none⟩ = .ok db₂ →
      ∃ vol r, findReservation db rid = some r ∧
        db.vols.find? (fun v => v.id == r.volId) = some vol ∧
        findReservation db₁ rid
          = some (amendRow s (vol.prix * (s : ℚ) + taxe_fixe) none r) ∧
        findReservation db₂ rid
          = some (amendRow s (vol.prix * (s : ℚ) + taxe_fixe) none r)) := by
  constructor
  · intro h1
    unfold create_reservation at h1
    cases hvol : findVolActif db volId with
    | none => rw [hvol] at h1; cases h1
    | some vol =>
      simp only [hvol] at h1
      cases havion : findAvion db.avions vol.avionId with
      | none => rw [havion] at h1; cases h1
      | some avion =>
        simp only [havion] at h1
        by_cases hc1 : avion.capacite ≤ 0
        · rw [if_pos hc1] at h1; cases h1
        · rw [if_neg hc1] at h1
          by_cases hc2 : s ≤ 0
          · rw [if_pos hc2] at h1; cases h1
          · rw [if_neg hc2] at h1
            by_cases hc3 : s > avion.capacite - occupied_seats db.reservations vol.id
            · rw [if_pos hc3] at h1; cases h1
            · rw [if_neg hc3] at h1
              have hdb : db₁ = { db with
                  reservations := (db.reservations ++
                    [{ id := db.nextReservationId, utilisateurId := userId,
                       volId := vol.id, statut := "EN_ATTENTE", nombrePlace := some s,
                       totalPayer := some (vol.prix * (s : ℚ) + taxe_fixe) }]),
                  nextReservationId := db.nextReservationId + 1 } :=
                (Except.ok.inj h1).symm
              subst hdb
              exact ⟨vol, _, rfl, rfl, rfl⟩
  · intro h1 h2
    obtain ⟨r, vol, hr, hvol, hdb₁⟩ := amend_ok_shape db db₁ rid s h1
    subst hdb₁
    obtain ⟨r₁, vol₁, hr₁, hvol₁, hdb₂⟩ := amend_ok_shape _ db₂ rid s h2
    have hfr1 : findReservation { db with
        reservations := (db.reservations.map (fun x =>
          if x.id == rid then amendRow s (vol.prix * (s : ℚ) + taxe_fixe) none x
          else x)) } rid
        = some (amendRow s (vol.prix * (s : ℚ) + taxe_fixe) none r) :=
      find_update db.reservations rid
        (amendRow s (vol.prix * (s : ℚ) + taxe_fixe) none) (fun x => rfl) r hr
    have hreq : r₁ = amendRow s (vol.prix * (s : ℚ) + taxe_fixe) none r :=
      Option.some.inj (hr₁.symm.trans hfr1)
    subst hreq
    have hvol₁' : db.vols.find? (fun v => v.id == r.volId) = some vol₁ := hvol₁
    have hveq : vol₁ = vol := Option.some.inj (hvol₁'.symm.trans hvol)
    subst hveq
    subst hdb₂
    refine ⟨vol₁, r, hr, hvol, hfr1, ?_⟩
    exact find_update
      (db.reservations.map (fun x =>
        if x.id == rid then amendRow s (vol₁.prix * (s : ℚ) + taxe_fixe) none x else x))
      rid (amendRow s (vol₁.prix * (s : ℚ) + taxe_fixe) none) (fun x => rfl)
      (amendRow s (vol₁.prix * (s : ℚ) + taxe_fixe) none r) hfr1

/-- Witness for C6: the concrete creation of 4 seats at fare 100 stores
exactly `100 * 4 + 12.50`. -/
theorem pricing_exact_total_witness :
    ∃ vol r', findVolActif dbCap10 1 = some vol ∧
      (applyOp dbCap10 (.create 7 1 4)).reservations = dbCap10.reservations ++ [r'] ∧
      r'.totalPayer = some (vol.prix * ((4 : Int) : ℚ) + taxe_fixe) :=
  (pricing_exact_total dbCap10 7 1 0 4 (applyOp dbCap10 (.create 7 1 4))
    (applyOp dbCap10 (.create 7 1 4))).1 rfl

/-- **Claim C7, counterexample.**  The seat sum of `get_flights_summary` has
no status filter, so a flight whose only reservation is CANCELLED (5 seats,
capacity 10) reports a 50 % load factor where the claimed formula (status ≠
CANCELLED) yields 0. -/
theorem load_factor_cancelled_cex :
    avg_load_factor dbLoad 0 = 50 ∧ spec_avg_load_factor dbLoad 0 = 0 ∧
    avg_load_factor dbLoad 0 ≠ spec_avg_load_factor dbLoad 0 := by
  have h1 : avg_load_factor dbLoad 0 = 50 := by
    unfold avg_load_factor load_factors
    norm_num [dbLoad, avionCap10, volGomaKin, capacity_or_zero, findAvion,
      seats_booked_all, List.filter, List.filterMap, List.find?, occupied_seats]
  have h2 : spec_avg_load_factor dbLoad 0 = 0 := by
    unfold spec_avg_load_factor
    norm_num [dbLoad, avionCap10, volGomaKin, findAvion, occupied_seats,
      List.filter, List.filterMap, List.find?]
  refine ⟨h1, h2, ?_⟩
  rw [h1, h2]
  norm_num

/-- **Claim C7 (amended).**  `avg_load_factor` equals the mean, over the
day's flights with positive known aircraft capacity, of
`occupied_seats / capacity * 100` where `occupied_seats` sums the seat
counts of **all** reservations on the flight (cancelled ones included);
flights with non-positive or unknown capacity are skipped, and the average
is 0 when no flight qualifies. -/
theorem avg_load_factor_eq_spec_all (db : DB) (today : Nat) :
    avg_load_factor db today = spec_avg_load_factor_all_statuses db today := by
  unfold avg_load_factor spec_avg_load_factor_all_statuses load_factors
  have hlist : ((db.vols.filter fun v => v.dateDepart == today).filterMap fun v =>
        if capacity_or_zero db v ≤ 0 then none
        else some ((seats_booked_all db.reservations v.id : ℚ)
          / (capacity_or_zero db v : ℚ) * 100))
      = (db.vols.filter fun v => v.dateDepart == today).filterMap fun v =>
        match findAvion db.avions v.avionId with
        | some a =>
            if 0 < a.capacite then
              some ((seats_booked_all db.reservations v.id : ℚ) / (a.capacite : ℚ) * 100)
            else none
        | none => none := by
    apply List.filterMap_congr
    intro v _
    unfold capacity_or_zero
    cases hfa : findAvion db.avions v.avionId with
    | none => simp
    | some a =>
      by_cases h : a.capacite ≤ 0
      · simp [h, show ¬ (0 : Int) < a.capacite from by omega]
      · simp [h, show (0 : Int) < a.capacite from by omega]
  rw [hlist]

/-- **Claim C8.**  When an aircraft update changes its status from
`disponible` (available) to a value outside `["disponible", "available"]`,
every `actif` flight on that aircraft transitions to `bloque`, and every
flight whose status is not `actif` keeps its row unchanged (as does every
flight of another aircraft, by the same map equation). -/
theorem aircraft_status_cascade (db : DB) (aid : Nat) (a : Avion) (st : String)
    (ha : findAvion db.avions aid = some a)
    (hav : a.statut = "disponible")
    (hch : st ≠ a.statut)
    (hst : (["disponible", "available"].contains (lowerAscii st)) = false) :
    update_aircraft db aid ⟨none, none, some st, none⟩ = .ok { db with
      avions := (db.avions.map (fun x =>
        if x.id == aid then { a with statut := st } else x)),
      vols := (db.vols.map (fun v =>
        if v.avionId == a.id && v.statut == "actif" then { v with statut := "bloque" }
        else v)) } ∧
    (∀ v ∈ db.vols, v.avionId = a.id → v.statut = "actif" →
      { v with statut := "bloque" } ∈ (db.vols.map (fun v =>
        if v.avionId == a.id && v.statut == "actif" then { v with statut := "bloque" }
        else v))) ∧
    (∀ v ∈ db.vols, v.statut ≠ "actif" →
      v ∈ (db.vols.map (fun v =>
        if v.avionId == a.id && v.statut == "actif" then { v with statut := "bloque" }
        else v))) := by
  refine ⟨?_, ?_, ?_⟩
  · unfold update_aircraft
    simp only [ha]
    rw [if_neg (by simp [Option.any])]
    have hcond : (a.statut != (avionAfterUpdate a ⟨none, none, some st, none⟩).statut
        && !(["disponible", "available"].contains
              (lowerAscii (avionAfterUpdate a ⟨none, none, some st, none⟩).statut)))
        = true := by
      have h1 : (avionAfterUpdate a ⟨none, none, some st, none⟩).statut = st := rfl
      rw [h1, hst]
      simp [bne_iff_ne]
      exact fun h => hch h.symm
    rw [if_pos hcond]
    rfl
  · intro v hv hva hvs
    have := List.mem_map_of_mem (fun v : Vol =>
      if v.avionId == a.id && v.statut == "actif" then { v with statut := "bloque" }
      else v) hv
    simpa [hva, hvs] using this
  · intro v hv hvs
    have := List.mem_map_of_mem (fun v : Vol =>
      if v.avionId == a.id && v.statut == "actif" then { v with statut := "bloque" }
      else v) hv
    simpa [hvs] using this

/-- Witness for C8: the ten-seat aircraft goes `disponible → indisponible`;
its active flight is blocked, its already-cancelled flight is untouched. -/
theorem aircraft_status_cascade_witness :
    update_aircraft dbCascade 1 ⟨none, none, some "indisponible", none⟩
      = .ok { dbCascade with
          avions := ([{ avionCap10 with statut := "indisponible" }]),
          vols := ([{ volGomaKin with statut := "bloque" }, volCancelled]) } := by
  rw [(aircraft_status_cascade dbCascade 1 avionCap10 "indisponible"
    rfl rfl (by decide) (by decide)).1]
  rfl

/-- **Claim C9.**  Administrative Cancel succeeds for every existing
reservation regardless of its prior status, sets the status to `ANNULEE`,
and is idempotent: cancelling the resulting state again succeeds and
returns exactly the same state. -/
theorem cancel_reservation_idempotent (db : DB) (rid : Nat) (r : Reservation)
    (hr : findReservation db rid = some r) :
    ∃ db', cancel_reservation_admin db rid = .ok db' ∧
      statusOf db' rid = some "ANNULEE" ∧
      cancel_reservation_admin db' rid = .ok db' := by
  refine ⟨{ db with reservations := (db.reservations.map (fun x =>
    if x.id == rid then { x with statut := "ANNULEE" } else x)) }, ?_, ?_, ?_⟩
  · unfold cancel_reservation_admin
    rw [hr]
  · have hfr := find_update db.reservations rid
      (fun x => { x with statut := "ANNULEE" }) (fun x => rfl) r hr
    unfold statusOf findReservation
    rw [hfr]
    rfl
  · have hfr := find_update db.reservations rid
      (fun x => { x with statut := "ANNULEE" }) (fun x => rfl) r hr
    unfold cancel_reservation_admin
    rw [show findReservation { db with reservations := (db.reservations.map (fun x =>
      if x.id == rid then { x with statut := "ANNULEE" } else x)) } rid
      = some { r with statut := "ANNULEE" } from hfr]
    have hmap : ((db.reservations.map (fun x =>
        if x.id == rid then { x with statut := "ANNULEE" } else x)).map (fun x =>
        if x.id == rid then { x with statut := "ANNULEE" } else x))
        = db.reservations.map (fun x =>
          if x.id == rid then { x with statut := "ANNULEE" } else x) := by
      rw [List.map_map]
      apply List.map_congr_left
      intro x _
      by_cases h : x.id = rid <;> simp [Function.comp, h]
    rw [hmap]

/-- Witness for C9 on an already-cancelled reservation: Cancel returns
success and the same terminal state, twice. -/
theorem cancel_reservation_idempotent_witness :
    ∃ db', cancel_reservation_admin dbCancelled 1 = .ok db' ∧
      statusOf db' 1 = some "ANNULEE" ∧
      cancel_reservation_admin db' 1 = .ok db' :=
  cancel_reservation_idempotent dbCancelled 1
    ⟨1, 7, 1, "ANNULEE", some 2, some 212.5⟩ rfl

/-- **Claim C10.**  `process_payment` has no reservation-status
precondition: for a reservation owned by the caller with no existing
payment, it succeeds whatever the current status is (the hypotheses say
nothing about `r.statut`), inserts a payment whose amount is the stored
total — or `0` when the stored total is `NULL` (`total_payer or
Decimal("0.00")`) — and sets the reservation's status to `PAYE`. -/
theorem pay_no_status_precondition (db : DB) (userId rid : Nat) (ph : String)
    (r : Reservation)
    (hres : db.reservations.find? (fun x => x.id == rid && x.utilisateurId == userId)
      = some r)
    (hnopay : (db.paiements.any fun p => p.reservationId == rid) = false) :
    process_payment db userId rid ph = .ok { db with
      modePaiements := (if db.modePaiements.contains "Mobile Money" then db.modePaiements
        else db.modePaiements ++ ["Mobile Money"]),
      paiements := (db.paiements ++
        [{ montant := r.totalPayer.getD 0, reservationId := r.id, phoneNumber := ph }]),
      reservations := (db.reservations.map (fun x =>
        if x.id == r.id then { x with statut := "PAYE" } else x)) } ∧
    statusOf (applyOp db (.pay userId rid ph)) rid = some "PAYE" := by
  have hid : r.id = rid := by
    have hp := List.find?_some hres
    rw [Bool.and_eq_true] at hp
    simpa using hp.1
  have hmain : process_payment db userId rid ph = .ok { db with
      modePaiements := (if db.modePaiements.contains "Mobile Money" then db.modePaiements
        else db.modePaiements ++ ["Mobile Money"]),
      paiements := (db.paiements ++
        [{ montant := r.totalPayer.getD 0, reservationId := r.id, phoneNumber := ph }]),
      reservations := (db.reservations.map (fun x =>
        if x.id == r.id then { x with statut := "PAYE" } else x)) } := by
    unfold process_payment
    simp only [hres]
    rw [if_neg (by rw [hnopay]; exact Bool.false_ne_true)]
  refine ⟨hmain, ?_⟩
  rw [applyOp_of_ok (show runOp db (.pay userId rid ph) = _ from hmain)]
  have hex : ∃ x₀, db.reservations.find? (fun x => x.id == rid) = some x₀ := by
    cases hfind : db.reservations.find? (fun x => x.id == rid) with
    | some x₀ => exact ⟨x₀, rfl⟩
    | none =>
      exfalso
      have hall := List.find?_eq_none.mp hfind r (List.mem_of_find?_eq_some hres)
      exact hall (by simpa using hid)
  obtain ⟨x₀, hx₀⟩ := hex
  have hfr := find_update db.reservations r.id
    (fun x => { x with statut := "PAYE" }) (fun x => rfl) x₀ (hid ▸ hx₀)
  unfold statusOf findReservation
  rw [show (db.reservations.map (fun x =>
    if x.id == r.id then { x with statut := "PAYE" } else x)).find?
      (fun x => x.id == rid)
    = some { x₀ with statut := "PAYE" } from hid ▸ hfr]
  rfl

/-- Witness for C10: paying a CANCELLED reservation whose stored total is
`NULL` succeeds, records a 0-amount payment, and sets the status to PAYE. -/
theorem pay_no_status_precondition_witness :
    process_payment dbCancelledNullTotal 7 1 "099000000" = .ok { dbCancelledNullTotal with
      modePaiements := (["Mobile Money"]),
      paiements := ([{ montant := 0, reservationId := 1, phoneNumber := "099000000" }]),
      reservations := ([⟨1, 7, 1, "PAYE", some 2, none⟩]) } ∧
    statusOf (applyOp dbCancelledNullTotal (.pay 7 1 "099000000")) 1 = some "PAYE" := by
  have h := pay_no_status_precondition dbCancelledNullTotal 7 1 "099000000"
    ⟨1, 7, 1, "ANNULEE", some 2, none⟩ rfl (by decide)
  refine ⟨?_, h.2⟩
  rw [h.1]
  rfl
